import Mathlib

/-!
Shallow embedding of `src/server.py`, a Flask backend for YouTube
download/transcript/summarize, and proofs of the specification claims.

Modelling conventions:
* Python values that may be a number or a display string (the progress
  record's `speed`/`eta` fields) are modelled by the sum type `PVal`.
* Numeric JSON fields are modelled by `ℚ` (byte counts, percentages) or
  `Nat` (heights, file sizes, integral kbps bitrates).
* A Python `dict.get(k, d)` on an optional field is `Option.getD`;
  a field that is absent or `None` is `none`.
* External collaborators (yt-dlp, psutil, the transcript API, Gemini) are
  out of scope per the spec; their outcomes enter the handlers as explicit
  parameters (`Except`/`Option` values), and the handlers' own control
  flow (try/except, fallback chains, response shaping) is embedded
  faithfully from the source.
* A Flask view that falls off the end of the function returns Python
  `None`; this is modelled by an `Option`-valued response being `none`.
-/

/-- A JSON-ish scalar that is either a number or a string, as stored in the
mutable progress record (`speed` and `eta` hold the string defaults
`"0 KiB/s"` / `"00:00"` after `__init__` but numbers after
`progress_hook` / `reset_progress`). -/
inductive PVal where
  | num : ℚ → PVal
  | str : String → PVal
deriving DecidableEq, Repr

/-- The process-wide mutable progress record, `class DownloadProgress`
(src/server.py lines 47-54).  `process` holds the pid of the recorded
OS-process handle, when any. -/
structure DownloadProgress where
  progress : ℚ
  speed : PVal
  eta : PVal
  status : String
  process : Option Nat
deriving DecidableEq, Repr

/-- `DownloadProgress.__init__` (src/server.py lines 48-53): the initial
defaults. -/
def DownloadProgress.init : DownloadProgress :=
  { progress := 0
    speed := .str "0 KiB/s"
    eta := .str "00:00"
    status := "starting"
    process := none }

/-- The dictionary yt-dlp passes to a progress hook, restricted to the keys
`progress_hook` reads.  A key that is absent or maps to Python `None` is
`none`. -/
structure HookDict where
  status : String
  total_bytes : Option ℚ
  total_bytes_estimate : Option ℚ
  downloaded_bytes : Option ℚ
  speed : Option ℚ
  eta : Option ℚ
deriving DecidableEq, Repr

/-- `progress_hook` (src/server.py lines 58-69).  Mirrors
`d.get('total_bytes') or d.get('total_bytes_estimate', 0)` (Python `or`
falls through on `None` and `0`). -/
def progress_hook (st : DownloadProgress) (d : HookDict) : DownloadProgress :=
  if d.status = "downloading" then
    let total_bytes : ℚ :=
      match d.total_bytes with
      | some v => if v ≠ 0 then v else d.total_bytes_estimate.getD 0
      | none => d.total_bytes_estimate.getD 0
    if total_bytes > 0 then
      { st with
        progress := (d.downloaded_bytes.getD 0) / total_bytes * 100
        speed := .num (d.speed.getD 0)
        eta := .num (d.eta.getD 0) }
    else st
  else if d.status = "finished" then
    { st with progress := 100, status := "finished" }
  else st

/-- Response of the `/cancel` view: the `{'status':'cancelled'}` body, or an
`{'error': msg}` body with HTTP status `code`. -/
inductive CancelResp where
  | cancelled
  | err (msg : String) (code : Nat)
deriving DecidableEq, Repr

/-- `cancel_download` (src/server.py lines 310-329).  `killTree` is the
outcome of the psutil process-tree kill (lines 315-318): `none` for
success, `some e` when it raises with message `e`.  The progress-record
mutations (lines 321-323) happen only after the kill succeeds; an
exception jumps to the `except` handler with the record untouched.  When
no process handle is recorded the function body falls through without a
`return`, so the view produces no response (`none`). -/
def cancel_download (st : DownloadProgress) (killTree : Option String) :
    DownloadProgress × Option CancelResp :=
  match st.process with
  | some _ =>
    match killTree with
    | some e => (st, some (.err e 500))
    | none =>
      ({ st with process := none, progress := 0, status := "cancelled" },
       some .cancelled)
  | none => (st, none)

/-- `reset_progress` (src/server.py lines 358-364).  Note it writes the
number `0` into `speed` and `eta`, not the constructor's display strings,
and does not touch `process`. -/
def reset_progress (st : DownloadProgress) : DownloadProgress :=
  { st with progress := 0, speed := .num 0, eta := .num 0, status := "starting" }

/-- The JSON body returned by `/progress`. -/
structure ProgressResp where
  progress : ℚ
  speed : PVal
  eta : PVal
  status : String
deriving DecidableEq, Repr

/-- `get_progress` (src/server.py lines 301-308): returns the record's
fields verbatim. -/
def get_progress (st : DownloadProgress) : ProgressResp :=
  { progress := st.progress, speed := st.speed, eta := st.eta, status := st.status }

/-! ### `/download` routing (src/server.py lines 71-189) -/

/-- Python `str.startswith`, on the character list. -/
def pyStartswith (s p : String) : Bool :=
  p.data.isPrefixOf s.data

/-- Python `str.replace(old, new)` on character lists: replace every
non-overlapping, leftmost occurrence of `old`, scanning left to right.
Structural recursion on a fuel bounded by the list length (each step
consumes at least one character, so `fuel = l.length` is exact). -/
def replaceList (old new : List Char) : Nat → List Char → List Char
  | 0, l => l
  | _ + 1, [] => []
  | fuel + 1, c :: rest =>
    if old ≠ [] ∧ old.isPrefixOf (c :: rest) then
      new ++ replaceList old new fuel (List.drop (old.length - 1) rest)
    else
      c :: replaceList old new fuel rest

/-- Python `str.replace` on strings. -/
def pyReplace (s old new : String) : String :=
  ⟨replaceList old.data new.data s.data.length s.data⟩

/-- The five fixed yt-dlp format strings of `format_map`
(src/server.py lines 106-112). -/
def fmt4k : String :=
  "bestvideo[height<=2160][ext=webm]+bestaudio[ext=webm]/best[height<=2160]"

def fmt1440p : String :=
  "bestvideo[height<=1440][ext=webm]+bestaudio[ext=webm]/best[height<=1440]"

def fmt1080p : String :=
  "bestvideo[height<=1080][ext=webm]+bestaudio[ext=webm]/best[height<=1080]"

def fmt720p : String :=
  "bestvideo[height=720][ext=webm]+bestaudio[ext=webm]/best[height=720]"

def fmt480p : String :=
  "bestvideo[height=480][ext=webm]+bestaudio[ext=webm]/best[height=480]"

/-- `format_map.get(quality)` (src/server.py lines 106-112). -/
def format_map (q : String) : Option String :=
  if q = "4k" then some fmt4k
  else if q = "1440p" then some fmt1440p
  else if q = "1080p" then some fmt1080p
  else if q = "720p" then some fmt720p
  else if q = "480p" then some fmt480p
  else none

/-- The routing decision of `download_video` (src/server.py lines 86-113):
whether the request takes the audio-extraction path, and which yt-dlp
format string is put into `ydl_opts['format']`. -/
structure Route where
  is_audio : Bool
  format_str : String
deriving DecidableEq, Repr

/-- `quality.startswith('audio_')` / `quality.replace('audio_','')` /
`format_map.get(quality, format_map['1080p'])` (src/server.py
lines 87-113). -/
def routeOf (quality : String) : Route :=
  let is_audio := pyStartswith quality "audio_"
  if is_audio then
    { is_audio := true, format_str := pyReplace quality "audio_" "" }
  else
    { is_audio := false, format_str := (format_map quality).getD fmt1080p }

/-- Response of the `/download` view: a `send_file` attachment with the given
mimetype, or an `{'error': .., 'details': ..}` body with HTTP status 500. -/
inductive DlResp where
  | attachment (mimetype : String)
  | err (msg : String) (code : Nat)
deriving DecidableEq, Repr

/-- `download_video` (src/server.py lines 71-189).  Parameters model the
request and the collaborator outcomes:
* `quality` is `request.args.get('formatId')` (`none` when absent — then
  `quality.startswith` raises `AttributeError`, caught by the outer
  `except`, which sets `process = None` and returns 500);
* `pid` is the handle recorded by `download_progress.process = psutil.Process()`;
* `extract` is the outcome of `ydl.extract_info` (and of everything else
  inside the inner `try` that can raise before the existence check);
* `fileExists` is `os.path.exists(filename)`.
The inner `finally` (line 173) sets `process = None` on every exit of the
inner `try`; the outer `except` (line 176) sets it again on error paths. -/
def download_video (st : DownloadProgress) (quality : Option String)
    (pid : Nat) (extract : Except String Unit) (fileExists : Bool) :
    DownloadProgress × DlResp :=
  match quality with
  | none =>
    ({ st with process := none },
     .err "AttributeError: NoneType object has no attribute startswith" 500)
  | some q =>
    let r := routeOf q
    let st1 := { st with process := some pid }
    match extract with
    | .error e => ({ st1 with process := none }, .err e 500)
    | .ok _ =>
      if fileExists then
        ({ st1 with process := none },
         .attachment (if r.is_audio then "audio/mp3" else "video/mp4"))
      else
        ({ st1 with process := none },
         .err "Downloaded file not found" 500)

/-! ### `/summarize` (src/server.py lines 445-495) -/

/-- Python `str.lower` (ASCII case folding, as relevant here). -/
def pyLower (s : String) : String :=
  ⟨s.data.map Char.toLower⟩

/-- Python `needle in hay` on strings: substring containment. -/
def pyIn (needle hay : String) : Bool :=
  decide (needle.data <:+: hay.data)

/-- Python truthiness of an optional string: `None` and `''` are falsy. -/
def pyFalsyStr : Option String → Bool
  | none => true
  | some s => s = ""

/-- The parsed JSON body of `/summarize`: `request.json`, when it is a JSON
object.  `text_field` is the object's `'text'` entry. -/
structure SummReq where
  text_field : Option String
deriving DecidableEq, Repr

/-- Response of the `/summarize` view. -/
inductive SResp where
  | ok (summary : String)
  | err (msg : String) (code : Nat)
deriving DecidableEq, Repr

/-- `summarize_text` (src/server.py lines 445-495).
* `data = none` models `request.json` being unusable (no/invalid JSON or a
  non-object): `data.get` raises, the outer `except` returns 400;
* `api_key` is `request.headers.get('X-Gemini-Key')`;
* `gemini` is the outcome of the Gemini call (`.ok summary`, or
  `.error msg` when it raises with message `msg`).
The invalid-key test is the source's
`"API key not valid" in error_msg.lower()` (line 481), embedded verbatim
as a substring test against the lowercased message. -/
def summarize_text (data : Option SummReq) (api_key : Option String)
    (gemini : Except String String) : SResp :=
  match data with
  | none => .err "AttributeError: NoneType object has no attribute get" 400
  | some d =>
    let text := d.text_field.getD ""
    if text = "" then .err "No text provided" 400
    else if pyFalsyStr api_key then .err "No API key provided" 401
    else
      match gemini with
      | .ok summary => .ok summary
      | .error error_msg =>
        if pyIn "API key not valid" (pyLower error_msg) then
          .err "Invalid API key. Please check your API key and try again." 401
        else
          .err "Failed to generate summary. Please try again later." 500

/-! ### `/get-transcript` (src/server.py lines 398-443) -/

/-- A transcript object of the transcript collaborator, restricted to what
the handler reads: its display language, whether it is auto-generated, and
the entries returned by `fetch()` (`(start, text)`, starts modelled as the
integral seconds the handler truncates to). -/
structure Transcript where
  language : String
  is_generated : Bool
  entries : List (Nat × String)
deriving DecidableEq, Repr

/-- The collaborator's transcript list for a video: the two lookup methods
the handler calls.  `none` models the method raising (transcript not
found). -/
structure TranscriptList where
  find_transcript : List String → Option Transcript
  find_generated_transcript : List String → Option Transcript

/-- Python `f"{n:02d}"`: decimal, zero-padded to two digits. -/
def pad2 (n : Nat) : String :=
  if n < 10 then "0" ++ toString n else toString n

/-- One line of the formatted transcript (src/server.py lines 428-433):
`[MM:SS] text` with `minutes = time // 60`, `seconds = time % 60`. -/
def formatEntry (e : Nat × String) : String :=
  "[" ++ pad2 (e.1 / 60) ++ ":" ++ pad2 (e.1 % 60) ++ "] " ++ e.2

/-- Response of the `/get-transcript` view. -/
structure TranscriptOk where
  transcript : String
  language : String
  isGenerated : Bool
deriving DecidableEq, Repr

inductive TResp where
  | ok (body : TranscriptOk)
  | err (msg : String) (code : Nat)
deriving DecidableEq, Repr

/-- The success response built from the finally-selected transcript
(src/server.py lines 423-439). -/
def renderTranscript (t : Transcript) : TResp :=
  .ok { transcript := String.intercalate "\n" (t.entries.map formatEntry)
        language := t.language
        isGenerated := t.is_generated }

/-- `get_transcript` (src/server.py lines 398-443).
* `videoId`/`language` are the query parameters (`language` defaults to
  `'en'`); a falsy `videoId` is rejected with 400;
* `tl` is the collaborator's transcript list (`list_transcripts`);
* `translate t lang` is the outcome of `t.translate(lang)`.
The nested try/except chain (lines 410-421) is embedded as the fallback
cascade: manual-or-found transcript in the requested language, then
auto-generated in the requested language, then the Hindi (`'hi'`)
auto-generated transcript, translated when the requested language is not
`'hi'`.  An exception escaping the cascade (no Hindi transcript, or
`translate` raising) reaches the outer handler and yields 400. -/
def get_transcript (videoId : Option String) (language : Option String)
    (tl : TranscriptList) (translate : Transcript → String → Except String Transcript) :
    TResp :=
  if pyFalsyStr videoId then .err "No video ID provided" 400
  else
    let lang := language.getD "en"
    match tl.find_transcript [lang] with
    | some t => renderTranscript t
    | none =>
      match tl.find_generated_transcript [lang] with
      | some t => renderTranscript t
      | none =>
        match tl.find_generated_transcript ["hi"] with
        | none => .err "NoTranscriptFound" 400
        | some t =>
          if lang ≠ "hi" then
            match translate t lang with
            | .ok t2 => renderTranscript t2
            | .error e => .err e 400
          else renderTranscript t

/-! ### `/formats` (src/server.py lines 191-299) -/

/-- One entry of the collaborator's `info['formats']` list, restricted to
the keys `get_formats` reads.  A key that is absent (or `None`) is
`none`. -/
structure Format where
  format_id : Option String
  ext : Option String
  vcodec : Option String
  acodec : Option String
  height : Option Nat
  filesize : Option Nat
  abr : Option Nat
  protocol : Option String
deriving DecidableEq, Repr

/-- The per-height record kept in the `format_info` dict
(src/server.py lines 216-221). -/
structure VidInfo where
  format_id : Option String
  ext : Option String
  vcodec : Option String
  filesize : Nat
deriving DecidableEq, Repr

/-- `f` enters the video branch of the loop
(src/server.py line 212): `f.get('vcodec','none') != 'none' and
f.get('acodec','none') == 'none'`. -/
def isVideoFmt (f : Format) : Bool :=
  f.vcodec.getD "none" ≠ "none" && f.acodec.getD "none" = "none"

/-- The record stored for a winning video format
(src/server.py lines 216-221). -/
def vidInfoOf (f : Format) : VidInfo :=
  { format_id := f.format_id
    ext := f.ext
    vcodec := f.vcodec
    filesize := f.filesize.getD 0 }

/-- Lookup in the `format_info` dict, modelled as an association list with
unique keys. -/
def lookupH (l : List (Nat × VidInfo)) (h : Nat) : Option VidInfo :=
  match l with
  | [] => none
  | (k, v) :: rest => if k = h then some v else lookupH rest h

/-- Replace the (first) entry at key `h`. -/
def setH (l : List (Nat × VidInfo)) (h : Nat) (v : VidInfo) : List (Nat × VidInfo) :=
  match l with
  | [] => []
  | (k, w) :: rest => if k = h then (k, v) :: rest else (k, w) :: setH rest h v

/-- One iteration of the format loop, video branch
(src/server.py lines 210-221): keep, per positive height, the format with
the strictly largest `filesize` seen so far (first one wins ties). -/
def videoStep (fi : List (Nat × VidInfo)) (f : Format) : List (Nat × VidInfo) :=
  if isVideoFmt f then
    let h := f.height.getD 0
    if h > 0 then
      match lookupH fi h with
      | none => fi ++ [(h, vidInfoOf f)]
      | some cur =>
        if f.filesize.getD 0 > cur.filesize then setH fi h (vidInfoOf f) else fi
    else fi
  else fi

/-- The `format_info` dict after the whole loop. -/
def format_info (fs : List Format) : List (Nat × VidInfo) :=
  fs.foldl videoStep []

/-- `resolution_map` (src/server.py lines 238-244). -/
def resolution_map (h : Nat) : Option (String × String) :=
  if h = 2160 then some ("4k", "4K (2160p)")
  else if h = 1440 then some ("1440p", "QHD (1440p)")
  else if h = 1080 then some ("1080p", "Full HD (1080p)")
  else if h = 720 then some ("720p", "HD (720p)")
  else if h = 480 then some ("480p", "SD (480p)")
  else none

/-- `sorted(format_info.keys(), reverse=True)` (src/server.py line 247). -/
def sortedKeysDesc (l : List (Nat × VidInfo)) : List Nat :=
  List.insertionSort (· ≥ ·) (l.map Prod.fst)

/-- The heights the video loop emits (src/server.py lines 247-248): the
sorted keys restricted to those in `resolution_map`. -/
def emittedHeights (fs : List Format) : List Nat :=
  (sortedKeysDesc (format_info fs)).filter (fun h => (resolution_map h).isSome)

/-- One emitted video format option (src/server.py lines 249-256);
`type` is always `'video'`, `extension` always `'mp4'`. -/
structure VideoEntry where
  formatId : String
  extension : String
  quality : String
  label : String
  vcodec : Option String
deriving DecidableEq, Repr

/-- Build the emitted option for height `h` from its retained record. -/
def videoEntryAt (h : Nat) (v : VidInfo) : VideoEntry :=
  { formatId := ((resolution_map h).getD ("", "")).1
    extension := "mp4"
    quality := toString h ++ "p"
    label := ((resolution_map h).getD ("", "")).2
    vcodec := v.vcodec }

/-- The video portion of the `/formats` response (src/server.py
lines 246-256). -/
def videoEntries (fs : List Format) : List VideoEntry :=
  (emittedHeights fs).filterMap (fun h =>
    (lookupH (format_info fs) h).map (videoEntryAt h))

/-- One entry of the intermediate `audio_formats` list
(src/server.py lines 227-233). -/
structure AudioFmt where
  format_id : Option String
  ext : Option String
  filesize : Nat
  abr : Nat
  acodec : String
deriving DecidableEq, Repr

/-- `f` enters the audio branch (src/server.py line 224):
`f.get('vcodec','none') == 'none' and f.get('acodec','none') != 'none'`. -/
def isAudioFmt (f : Format) : Bool :=
  f.vcodec.getD "none" = "none" && f.acodec.getD "none" ≠ "none"

/-- The downloadability filter (src/server.py line 226): a truthy `abr` and
no dash-like protocol
(`not any(p in protocol for p in ['dash','http_dash_segments'])`). -/
def audioKept (f : Format) : Bool :=
  (f.abr ≠ none && f.abr ≠ some 0) &&
    !(pyIn "dash" (f.protocol.getD "") || pyIn "http_dash_segments" (f.protocol.getD ""))

/-- The record appended to `audio_formats` (src/server.py lines 227-233). -/
def audioFmtOf (f : Format) : AudioFmt :=
  { format_id := f.format_id
    ext := f.ext
    filesize := f.filesize.getD 0
    abr := f.abr.getD 0
    acodec := f.acodec.getD "unknown" }

/-- `audio_formats` after the loop and the descending-bitrate sort
(src/server.py lines 223-233 and 266). -/
def audio_formats (fs : List Format) : List AudioFmt :=
  List.insertionSort (fun a b => b.abr ≤ a.abr)
    ((fs.filter (fun f => isAudioFmt f && audioKept f)).map audioFmtOf)

/-- One emitted audio format option (src/server.py lines 286-293).
`qualityKey` records which `added_qualities` slot the entry took
(`'high'`/`'medium'`/`'low'`, recoverable from `label`); `abr` records the
bitrate printed into `quality` and `label`. -/
structure AudioEntry where
  formatId : String
  extension : String
  quality : String
  label : String
  codec : String
  qualityKey : String
  abr : Nat
deriving DecidableEq, Repr

/-- Build the emitted option (src/server.py lines 286-293):
`formatId = 'audio_' + format_id`, `quality = '<abr>kbps'`,
`label = 'Audio - <level> (<abr>kbps)'`. -/
def audioEntryOf (a : AudioFmt) (key lbl : String) : AudioEntry :=
  { formatId := "audio_" ++ a.format_id.getD ""
    extension := "mp3"
    quality := toString a.abr ++ "kbps"
    label := "Audio - " ++ lbl ++ " (" ++ toString a.abr ++ "kbps)"
    codec := a.acodec
    qualityKey := key
    abr := a.abr }

/-- One iteration of the audio-emission loop (src/server.py lines 270-293):
the `added_qualities` set and the accumulated options. -/
def audioStep (acc : List String × List AudioEntry) (a : AudioFmt) :
    List String × List AudioEntry :=
  let added := acc.1
  let out := acc.2
  if a.abr ≥ 256 ∧ "high" ∉ added then
    ("high" :: added, out ++ [audioEntryOf a "high" "High Quality"])
  else if a.abr ≥ 128 ∧ "medium" ∉ added then
    ("medium" :: added, out ++ [audioEntryOf a "medium" "Medium Quality"])
  else if "low" ∉ added then
    ("low" :: added, out ++ [audioEntryOf a "low" "Low Quality"])
  else acc

/-- The audio portion of the `/formats` response
(src/server.py lines 268-293). -/
def audioEntries (fs : List Format) : List AudioEntry :=
  ((audio_formats fs).foldl audioStep ([], [])).2

/-- The quality bucket a bitrate falls in by the thresholds of
`audio_quality_levels` (src/server.py lines 259-263): `high` for
`abr ≥ 256`, `medium` for `abr ≥ 128`, `low` otherwise. -/
def bucketOf (abr : Nat) : String :=
  if abr ≥ 256 then "high" else if abr ≥ 128 then "medium" else "low"

/-- The effect of one loop iteration on the `format_info` entry of a fixed
height `hgt`: a format of that (positive) height challenges the current
holder and wins exactly when its file size is strictly larger. -/
def vidChallenge (hgt : Nat) (cur : Option VidInfo) (f : Format) : Option VidInfo :=
  if isVideoFmt f ∧ f.height.getD 0 = hgt ∧ 0 < hgt then
    match cur with
    | none => some (vidInfoOf f)
    | some v => if f.filesize.getD 0 > v.filesize then some (vidInfoOf f) else some v
  else cur

/-- Invariant of the audio-emission loop: the emitted entries carry
pairwise-distinct quality levels, each recorded in `added_qualities`,
which itself is a duplicate-free subset of the three levels and at least
as long as the output. -/
def audioInv (acc : List String × List AudioEntry) : Prop :=
  (acc.2.map (fun e => e.qualityKey)).Nodup ∧
  (∀ e ∈ acc.2, e.qualityKey ∈ acc.1) ∧
  (∀ k ∈ acc.1, k = "high" ∨ k = "medium" ∨ k = "low") ∧
  acc.1.Nodup ∧
  acc.2.length ≤ acc.1.length

/-! ### Fixtures for concrete witnesses and counterexamples -/

/-- Fixture: a pure-audio collaborator format (no video codec, truthy
bitrate, plain https protocol). -/
def sampleAudio (id : String) (abr : Nat) : Format :=
  { format_id := some id, ext := some "webm", vcodec := none
    acodec := some "opus", height := none, filesize := some 1000
    abr := some abr, protocol := some "https" }

/-- Fixture: a video-only collaborator format with the given height and
file size. -/
def sampleVideo (id : String) (h fsz : Nat) : Format :=
  { format_id := some id, ext := some "webm", vcodec := some "vp9"
    acodec := none, height := some h, filesize := some fsz
    abr := none, protocol := some "https" }

/-- Fixture: a Hindi auto-generated transcript. -/
def hindiTranscript : Transcript :=
  { language := "Hindi", is_generated := true, entries := [(65, "namaste")] }

/-- Fixture: the English transcript produced by translating
`hindiTranscript`. -/
def englishTranscript : Transcript :=
  { language := "English", is_generated := true, entries := [(65, "hello")] }

/-- Fixture: a collaborator transcript list offering only the Hindi
auto-generated transcript. -/
def hindiOnly : TranscriptList :=
  { find_transcript := fun _ => none
    find_generated_transcript := fun ls => if ls = ["hi"] then some hindiTranscript else none }

/-- Fixture: a translating collaborator that always yields
`englishTranscript`. -/
def toEnglish : Transcript → String → Except String Transcript :=
  fun _ _ => .ok englishTranscript

/-- The set of status strings the spec allows the progress record's
`status` field to take (everything but `"downloading"`). -/
def statusAllowed (s : String) : Prop :=
  s = "starting" ∨ s = "finished" ∨ s = "cancelled"

instance (s : String) : Decidable (statusAllowed s) := by
  unfold statusAllowed
  infer_instance

/-! ### Helper lemmas -/

theorem toNat_ofNat_valid {n : Nat} (h : n.isValidChar) : (Char.ofNat n).toNat = n := by
  unfold Char.ofNat
  rw [dif_pos h]
  rfl

theorem toLower_toNat_ne_65 (c : Char) : (Char.toLower c).toNat ≠ 65 := by
  unfold Char.toLower
  dsimp only
  split
  · next h =>
    have h1 : (65:Nat) ≤ c.toNat := h.1
    have hv : (c.toNat + 32).isValidChar := Or.inl (by omega)
    rw [toNat_ofNat_valid hv]
    omega
  · next h =>
    intro hEq
    exact h ⟨by omega, by omega⟩

/-- The source's invalid-key test
`"API key not valid" in error_msg.lower()` (src/server.py line 481) can
never succeed: the lowercased message contains no uppercase `'A'`. -/
theorem pyIn_api_key_lower (msg : String) :
    pyIn "API key not valid" (pyLower msg) = false := by
  unfold pyIn pyLower
  rw [decide_eq_false_iff_not]
  intro hinf
  have hA : 'A' ∈ "API key not valid".data := by decide
  have hmem : 'A' ∈ msg.data.map Char.toLower := hinf.subset hA
  obtain ⟨c, _, hc⟩ := List.mem_map.mp hmem
  exact toLower_toNat_ne_65 c (congrArg Char.toNat hc)

theorem progress_hook_status (st : DownloadProgress) (d : HookDict) :
    (progress_hook st d).status = st.status ∨ (progress_hook st d).status = "finished" := by
  by_cases h1 : d.status = "downloading"
  · unfold progress_hook
    rw [if_pos h1]
    dsimp only
    split
    · exact Or.inl rfl
    · exact Or.inl rfl
  · by_cases h2 : d.status = "finished"
    · unfold progress_hook
      rw [if_neg h1, if_pos h2]
      exact Or.inr rfl
    · unfold progress_hook
      rw [if_neg h1, if_neg h2]
      exact Or.inl rfl

theorem routeOf_is_audio (q : String) (h : pyStartswith q "audio_" = true) :
    (routeOf q).is_audio = true := by
  simp [routeOf, h]

theorem download_video_ok_resp (st : DownloadProgress) (q : String) (pid : Nat) :
    (download_video st (some q) pid (.ok ()) true).2 =
      .attachment (if (routeOf q).is_audio then "audio/mp3" else "video/mp4") := rfl

theorem routeOf_token (q s : String) (h : format_map q = some s)
    (hna : pyStartswith q "audio_" = false) : (routeOf q).format_str = s := by
  simp [routeOf, hna, h]

theorem cancel_download_status (st : DownloadProgress) (k : Option String) :
    ((cancel_download st k).1).status = st.status ∨
      ((cancel_download st k).1).status = "cancelled" := by
  unfold cancel_download
  rcases h : st.process with _ | pid
  · exact Or.inl rfl
  · rcases k with _ | e
    · exact Or.inr rfl
    · exact Or.inl rfl

theorem download_video_status (st : DownloadProgress) (q : Option String)
    (pid : Nat) (ex : Except String Unit) (fe : Bool) :
    ((download_video st q pid ex fe).1).status = st.status := by
  unfold download_video
  rcases q with _ | q
  · rfl
  · rcases ex with e | u
    · rfl
    · rcases fe with _ | _ <;> rfl

/-! ### Claims -/

/-- Claim C1 (code bug): empty text does give 400 and a missing key does
give 401, but the spec also says a collaborator invalid-API-key error
yields 401 with an "Invalid API key" message; the source's test
`"API key not valid" in error_msg.lower()` (line 481) compares a
mixed-case literal against a lowercased string and can never succeed, so
every collaborator error — the invalid-key one included — yields 500 with
the generic message. -/
theorem summarize_collab_error_always_500 :
    (∀ api_key gemini, summarize_text (some { text_field := some "" }) api_key gemini =
      .err "No text provided" 400) ∧
    (∀ api_key gemini, summarize_text (some { text_field := none }) api_key gemini =
      .err "No text provided" 400) ∧
    (∀ gemini, summarize_text (some { text_field := some "transcript text" }) none gemini =
      .err "No API key provided" 401) ∧
    (∀ error_msg, summarize_text (some { text_field := some "transcript text" })
        (some "AIzaSyBadKey") (.error error_msg) =
      .err "Failed to generate summary. Please try again later." 500) := by
  refine ⟨fun _ _ => rfl, fun _ _ => rfl, fun _ => rfl, fun error_msg => ?_⟩
  unfold summarize_text
  simp [pyFalsyStr, pyIn_api_key_lower]

/-- Claim C2 (code bug): the spec says `GET /cancel` with no recorded
process returns a `{status:"cancelled"}` or `{error}` JSON response; but
when `download_progress.process` is `None` the handler body falls through
without a `return`, so the view produces no response at all (Python
`None`, which Flask rejects), whatever the would-be kill outcome. -/
theorem cancel_no_process_no_response (killTree : Option String) :
    (cancel_download DownloadProgress.init killTree).2 = none := rfl

/-- Claim C3, counterexample: `reset_progress` does not restore the
constructor defaults — starting from the freshly constructed record it
changes it (`speed`/`eta` become the number `0`, not `"0 KiB/s"` /
`"00:00"`). -/
theorem reset_ne_init : reset_progress DownloadProgress.init ≠ DownloadProgress.init := by
  decide

/-- Claim C3 (corrected): after `/reset-progress` the record holds
`progress = 0`, `status = "starting"`, and the *number* `0` in `speed` and
`eta` (not the constructor's display strings), with `process` untouched;
a subsequent `/progress` returns exactly those values. -/
theorem reset_then_progress (st : DownloadProgress) :
    (reset_progress st).progress = 0 ∧
    (reset_progress st).speed = .num 0 ∧
    (reset_progress st).eta = .num 0 ∧
    (reset_progress st).status = "starting" ∧
    (reset_progress st).process = st.process ∧
    get_progress (reset_progress st) =
      { progress := 0, speed := .num 0, eta := .num 0, status := "starting" } :=
  ⟨rfl, rfl, rfl, rfl, rfl, rfl⟩

/-- Claim C6 (confirmed): a `formatId` starting with `audio_` routes to the
audio-extraction path and is sent back as an `audio/mp3` attachment; the
five bare quality tokens select their fixed format strings; any other
token selects the `1080p` format string. -/
theorem download_format_routing (q : String) :
    (pyStartswith q "audio_" = true →
      (routeOf q).is_audio = true ∧
      ∀ st pid, (download_video st (some q) pid (.ok ()) true).2 = .attachment "audio/mp3") ∧
    (q = "4k" → (routeOf q).format_str = fmt4k) ∧
    (q = "1440p" → (routeOf q).format_str = fmt1440p) ∧
    (q = "1080p" → (routeOf q).format_str = fmt1080p) ∧
    (q = "720p" → (routeOf q).format_str = fmt720p) ∧
    (q = "480p" → (routeOf q).format_str = fmt480p) ∧
    (pyStartswith q "audio_" = false → q ≠ "4k" → q ≠ "1440p" → q ≠ "1080p" →
      q ≠ "720p" → q ≠ "480p" → (routeOf q).format_str = fmt1080p) := by
  refine ⟨?_, ?_, ?_, ?_, ?_, ?_, ?_⟩
  · intro h
    refine ⟨routeOf_is_audio q h, ?_⟩
    intro st pid
    rw [download_video_ok_resp, routeOf_is_audio q h]
    rfl
  · rintro rfl; exact routeOf_token _ _ rfl (by decide)
  · rintro rfl; exact routeOf_token _ _ rfl (by decide)
  · rintro rfl; exact routeOf_token _ _ rfl (by decide)
  · rintro rfl; exact routeOf_token _ _ rfl (by decide)
  · rintro rfl; exact routeOf_token _ _ rfl (by decide)
  · intro h h4 h14 h10 h7 h48
    simp [routeOf, format_map, h, h4, h14, h10, h7, h48]

/-- Witness for C6: the routing theorem applied at the concrete tokens
`audio_140`, `4k` and an unrecognized token. -/
theorem download_format_routing_witness :
    ((routeOf "audio_140").is_audio = true ∧
      ∀ st pid, (download_video st (some "audio_140") pid (.ok ()) true).2 =
        .attachment "audio/mp3") ∧
    (routeOf "4k").format_str = fmt4k ∧
    (routeOf "best").format_str = fmt1080p :=
  ⟨(download_format_routing "audio_140").1 (by decide),
   (download_format_routing "4k").2.1 rfl,
   (download_format_routing "best").2.2.2.2.2.2 (by decide)
     (by decide) (by decide) (by decide) (by decide) (by decide)⟩

/-- Claim C8 (confirmed): when a process handle is recorded and killing the
process tree raises, `/cancel` reports the error with status 500 and the
progress record is returned unchanged in every field. -/
theorem cancel_kill_failure (st : DownloadProgress) (pid : Nat) (e : String)
    (h : st.process = some pid) :
    cancel_download st (some e) = (st, some (.err e 500)) := by
  unfold cancel_download
  rw [h]

/-- Witness for C8 at a concrete state with a recorded handle. -/
theorem cancel_kill_failure_witness :
    cancel_download { DownloadProgress.init with process := some 3 } (some "kill failed") =
      ({ DownloadProgress.init with process := some 3 },
        some (.err "kill failed" 500)) :=
  cancel_kill_failure _ 3 "kill failed" rfl

/-- Claim C9 (confirmed): no write site of the `status` field ever assigns
`"downloading"`: starting from any record whose status is among
`starting`/`finished`/`cancelled` (as the constructor guarantees), every
operation — the progress hook, cancel, reset, and the download handler —
leaves it in that set. -/
theorem status_never_downloading (st : DownloadProgress) (d : HookDict)
    (k q : Option String) (pid : Nat) (ex : Except String Unit) (fe : Bool)
    (h : statusAllowed st.status) :
    statusAllowed DownloadProgress.init.status ∧
    statusAllowed (progress_hook st d).status ∧
    statusAllowed ((cancel_download st k).1).status ∧
    statusAllowed (reset_progress st).status ∧
    statusAllowed ((download_video st q pid ex fe).1).status := by
  refine ⟨Or.inl rfl, ?_, ?_, Or.inl rfl, ?_⟩
  · rcases progress_hook_status st d with hs | hs <;> rw [hs]
    · exact h
    · exact Or.inr (Or.inl rfl)
  · rcases cancel_download_status st k with hs | hs <;> rw [hs]
    · exact h
    · exact Or.inr (Or.inr rfl)
  · rw [download_video_status]
    exact h

/-- Witness for C9 at the initial record and concrete operation inputs. -/
theorem status_never_downloading_witness :
    statusAllowed DownloadProgress.init.status ∧
    statusAllowed (progress_hook DownloadProgress.init
      { status := "downloading", total_bytes := some 100, total_bytes_estimate := none
        downloaded_bytes := some 50, speed := some 7, eta := some 9 }).status ∧
    statusAllowed ((cancel_download DownloadProgress.init none).1).status ∧
    statusAllowed (reset_progress DownloadProgress.init).status ∧
    statusAllowed ((download_video DownloadProgress.init (some "1080p") 3 (.ok ()) true).1).status :=
  status_never_downloading DownloadProgress.init _ none (some "1080p") 3 (.ok ()) true
    (Or.inl rfl)

/-- Claim C10 (confirmed): whenever the `/download` handler returns — the
attachment path, the missing-file path, the extraction-error path, and the
missing-`formatId` path alike — the progress record's `process` field is
`None`. -/
theorem download_clears_process (st : DownloadProgress) (q : Option String)
    (pid : Nat) (ex : Except String Unit) (fe : Bool) :
    ((download_video st q pid ex fe).1).process = none := by
  unfold download_video
  rcases q with _ | q
  · rfl
  · rcases ex with e | u
    · rfl
    · rcases fe with _ | _ <;> rfl

/-- Claim C7 (confirmed): `/get-transcript` tries sources in order — a
transcript found for the requested language, then an auto-generated one
for that language, then the Hindi auto-generated transcript translated
into the requested language — and the `language` field of the returned
JSON is the finally selected (possibly translated) transcript's
language. -/
theorem transcript_fallback_order (vid : String) (language : Option String)
    (tl : TranscriptList) (translate : Transcript → String → Except String Transcript)
    (hvid : vid ≠ "") :
    (∀ t, tl.find_transcript [language.getD "en"] = some t →
      get_transcript (some vid) language tl translate = renderTranscript t) ∧
    (tl.find_transcript [language.getD "en"] = none →
      ∀ t, tl.find_generated_transcript [language.getD "en"] = some t →
        get_transcript (some vid) language tl translate = renderTranscript t) ∧
    (tl.find_transcript [language.getD "en"] = none →
      tl.find_generated_transcript [language.getD "en"] = none →
      ∀ t t2, tl.find_generated_transcript ["hi"] = some t →
        language.getD "en" ≠ "hi" → translate t (language.getD "en") = .ok t2 →
        get_transcript (some vid) language tl translate = renderTranscript t2 ∧
        ∃ body, get_transcript (some vid) language tl translate = .ok body ∧
          body.language = t2.language ∧ body.isGenerated = t2.is_generated) := by
  have hfalsy : pyFalsyStr (some vid) = false := by simp [pyFalsyStr, hvid]
  refine ⟨?_, ?_, ?_⟩
  · intro t ht
    simp only [get_transcript, hfalsy, Bool.false_eq_true, if_false, ht]
  · intro h0 t ht
    simp only [get_transcript, hfalsy, Bool.false_eq_true, if_false, h0, ht]
  · intro h0 h1 t t2 hhi hlang htr
    have hmain : get_transcript (some vid) language tl translate = renderTranscript t2 := by
      simp only [get_transcript, hfalsy, Bool.false_eq_true, if_false, h0, h1, hhi, htr]
      rw [if_pos hlang]
    exact ⟨hmain,
      { transcript := String.intercalate "\n" (t2.entries.map formatEntry)
        language := t2.language, isGenerated := t2.is_generated },
      by rw [hmain]; rfl, rfl, rfl⟩

/-- Witness for C7: a collaborator offering only the Hindi auto-generated
transcript; requesting English selects its English translation and
reports the translated transcript's language. -/
theorem transcript_fallback_order_witness :
    get_transcript (some "abc") (some "en") hindiOnly toEnglish =
      renderTranscript englishTranscript ∧
    ∃ body, get_transcript (some "abc") (some "en") hindiOnly toEnglish = .ok body ∧
      body.language = englishTranscript.language ∧
      body.isGenerated = englishTranscript.is_generated :=
  (transcript_fallback_order "abc" (some "en") hindiOnly toEnglish (by decide)).2.2
    rfl rfl hindiTranscript englishTranscript rfl (by decide) rfl

theorem audioInv_push (added : List String) (out : List AudioEntry) (a : AudioFmt)
    (key lbl : String) (hkey : key = "high" ∨ key = "medium" ∨ key = "low")
    (hnotin : key ∉ added) (h : audioInv (added, out)) :
    audioInv (key :: added, out ++ [audioEntryOf a key lbl]) := by
  unfold audioInv at h ⊢
  dsimp only at h ⊢
  obtain ⟨hnd, hmem, hset, hand, hlen⟩ := h
  refine ⟨?_, ?_, ?_, ?_, ?_⟩
  · rw [List.map_append, List.nodup_append]
    refine ⟨hnd, by simp, ?_⟩
    intro x hx hx'
    simp only [List.map_cons, List.map_nil, List.mem_singleton] at hx'
    subst hx'
    obtain ⟨e, he, hek⟩ := List.mem_map.mp hx
    exact hnotin (hek ▸ hmem e he)
  · intro e he
    rcases List.mem_append.mp he with h' | h'
    · exact List.mem_cons_of_mem _ (hmem e h')
    · simp only [List.mem_singleton] at h'
      subst h'
      exact List.mem_cons_self _ _
  · intro k hk
    rcases List.mem_cons.mp hk with h' | h'
    · exact h' ▸ hkey
    · exact hset k h'
  · exact List.nodup_cons.mpr ⟨hnotin, hand⟩
  · simp only [List.length_append, List.length_cons, List.length_nil]
    omega

theorem audioStep_inv (acc : List String × List AudioEntry) (a : AudioFmt)
    (h : audioInv acc) : audioInv (audioStep acc a) := by
  obtain ⟨added, out⟩ := acc
  unfold audioStep
  dsimp only
  split
  · next hc =>
      exact audioInv_push added out a "high" "High Quality" (Or.inl rfl) hc.2 h
  · split
    · next hc =>
        exact audioInv_push added out a "medium" "Medium Quality" (Or.inr (Or.inl rfl)) hc.2 h
    · split
      · next hc =>
          exact audioInv_push added out a "low" "Low Quality" (Or.inr (Or.inr rfl)) hc h
      · exact h

theorem audioFold_inv (l : List AudioFmt) (acc : List String × List AudioEntry)
    (h : audioInv acc) : audioInv (l.foldl audioStep acc) := by
  induction l generalizing acc with
  | nil => exact h
  | cons a l ih => exact ih _ (audioStep_inv acc a h)

/-- Claim C4, counterexample: with two audio formats of 320kbps and
300kbps, both entries are emitted although both bitrates fall in the
`high` (≥256kbps) bucket — the second is merely relabelled `medium` by the
elif chain — so "at most one entry per bitrate-determined bucket" fails. -/
theorem audio_bucket_counterexample :
    ¬ (((audioEntries [sampleAudio "251" 320, sampleAudio "250" 300]).filter
        (fun e => bucketOf e.abr = "high")).length ≤ 1) := by decide

/-- Claim C4 (corrected): the audio loop emits at most one entry per
*assigned* quality level (`high`/`medium`/`low`, the level printed in the
entry's label), and hence at most three entries in total; but an entry's
assigned level may be lower than the bucket its own bitrate meets when a
higher-bitrate format already claimed that level, so uniqueness per
bitrate-determined bucket does not hold. -/
theorem audio_one_entry_per_level (fs : List Format) :
    ((audioEntries fs).map (fun e => e.qualityKey)).Nodup ∧
    (∀ e ∈ audioEntries fs,
      e.qualityKey = "high" ∨ e.qualityKey = "medium" ∨ e.qualityKey = "low") ∧
    (audioEntries fs).length ≤ 3 := by
  have hinv := audioFold_inv (audio_formats fs) ([], [])
    ⟨List.nodup_nil, by simp, by simp, List.nodup_nil, Nat.le_refl 0⟩
  obtain ⟨hnd, hmem, hset, hand, hlen⟩ := hinv
  refine ⟨hnd, fun e he => hset _ (hmem e he), ?_⟩
  have hsub : (((audio_formats fs).foldl audioStep ([], [])).1) ⊆
      ["high", "medium", "low"] := by
    intro k hk
    rcases hset k hk with h' | h' | h' <;> simp [h']
  have h3 : (((audio_formats fs).foldl audioStep ([], [])).1).length ≤ 3 :=
    (List.subperm_of_subset hand hsub).length_le
  exact Nat.le_trans hlen h3

theorem lookupH_cons (k : Nat) (v : VidInfo) (rest : List (Nat × VidInfo)) (h : Nat) :
    lookupH ((k, v) :: rest) h = if k = h then some v else lookupH rest h := rfl

theorem setH_cons (k' : Nat) (v' : VidInfo) (rest : List (Nat × VidInfo)) (k : Nat)
    (v : VidInfo) :
    setH ((k', v') :: rest) k v =
      if k' = k then (k', v) :: rest else (k', v') :: setH rest k v := rfl

theorem lookupH_isSome_iff (l : List (Nat × VidInfo)) (h : Nat) :
    (lookupH l h).isSome ↔ h ∈ l.map Prod.fst := by
  induction l with
  | nil => simp [lookupH]
  | cons kv rest ih =>
    obtain ⟨k, v⟩ := kv
    rw [lookupH_cons]
    by_cases hk : k = h
    · simp [hk]
    · simp only [hk, if_false, List.map_cons, List.mem_cons, ih]
      constructor
      · exact fun h' => Or.inr h'
      · rintro (h' | h')
        · exact absurd h'.symm hk
        · exact h'

theorem lookupH_append_some (l : List (Nat × VidInfo)) (k h : Nat) (v w : VidInfo)
    (hl : lookupH l h = some w) : lookupH (l ++ [(k, v)]) h = some w := by
  induction l with
  | nil => simp [lookupH] at hl
  | cons kv rest ih =>
    obtain ⟨k', v'⟩ := kv
    rw [List.cons_append, lookupH_cons]
    rw [lookupH_cons] at hl
    by_cases hk : k' = h
    · simpa [hk] using hl
    · simp only [hk, if_false] at hl ⊢
      exact ih hl

theorem lookupH_append_none (l : List (Nat × VidInfo)) (k h : Nat) (v : VidInfo)
    (hl : lookupH l h = none) :
    lookupH (l ++ [(k, v)]) h = if k = h then some v else none := by
  induction l with
  | nil => simp [lookupH, lookupH_cons]
  | cons kv rest ih =>
    obtain ⟨k', v'⟩ := kv
    rw [List.cons_append, lookupH_cons]
    rw [lookupH_cons] at hl
    by_cases hk : k' = h
    · simp [hk] at hl
    · simp only [hk, if_false] at hl ⊢
      exact ih hl

theorem lookupH_setH_ne (l : List (Nat × VidInfo)) (k h : Nat) (v : VidInfo)
    (hk : k ≠ h) : lookupH (setH l k v) h = lookupH l h := by
  induction l with
  | nil => simp [setH]
  | cons kv rest ih =>
    obtain ⟨k', v'⟩ := kv
    rw [setH_cons]
    by_cases hkk : k' = k
    · subst hkk
      rw [if_pos rfl, lookupH_cons, lookupH_cons]
      simp [hk]
    · rw [if_neg hkk, lookupH_cons, lookupH_cons, ih]

theorem lookupH_setH_eq (l : List (Nat × VidInfo)) (k : Nat) (v w : VidInfo)
    (hl : lookupH l k = some w) : lookupH (setH l k v) k = some v := by
  induction l with
  | nil => simp [lookupH] at hl
  | cons kv rest ih =>
    obtain ⟨k', v'⟩ := kv
    rw [lookupH_cons] at hl
    rw [setH_cons]
    by_cases hkk : k' = k
    · rw [if_pos hkk, lookupH_cons, if_pos hkk]
    · rw [if_neg hkk, lookupH_cons, if_neg hkk]
      rw [if_neg hkk] at hl
      exact ih hl

theorem setH_keys (l : List (Nat × VidInfo)) (k : Nat) (v : VidInfo) :
    (setH l k v).map Prod.fst = l.map Prod.fst := by
  induction l with
  | nil => rfl
  | cons kv rest ih =>
    obtain ⟨k', v'⟩ := kv
    rw [setH_cons]
    by_cases hkk : k' = k
    · simp [hkk]
    · simp only [hkk, if_false, List.map_cons, ih]

theorem videoStep_lookup (fi : List (Nat × VidInfo)) (f : Format) (hgt : Nat) :
    lookupH (videoStep fi f) hgt = vidChallenge hgt (lookupH fi hgt) f := by
  unfold videoStep vidChallenge
  by_cases hv : isVideoFmt f
  case neg => simp [hv]
  rw [if_pos hv]
  dsimp only
  by_cases hpos : f.height.getD 0 > 0
  case neg =>
    rw [if_neg hpos]
    have hcond : ¬(isVideoFmt f = true ∧ f.height.getD 0 = hgt ∧ 0 < hgt) := by
      rintro ⟨_, h2, h3⟩
      rw [h2] at hpos
      exact hpos h3
    rw [if_neg hcond]
  rw [if_pos hpos]
  by_cases heq : f.height.getD 0 = hgt
  · subst heq
    rw [if_pos ⟨hv, rfl, hpos⟩]
    cases hl : lookupH fi (f.height.getD 0) with
    | none =>
      rw [lookupH_append_none fi _ _ _ hl, if_pos rfl]
    | some cur =>
      dsimp only
      by_cases hbig : f.filesize.getD 0 > cur.filesize
      · rw [if_pos hbig, if_pos hbig]
        exact lookupH_setH_eq fi _ _ cur hl
      · rw [if_neg hbig, if_neg hbig, hl]
  · have hcond : ¬(isVideoFmt f = true ∧ f.height.getD 0 = hgt ∧ 0 < hgt) := by
      rintro ⟨_, h2, _⟩
      exact heq h2
    rw [if_neg hcond]
    cases hl : lookupH fi (f.height.getD 0) with
    | none =>
      cases hl2 : lookupH fi hgt with
      | none =>
        rw [lookupH_append_none fi _ _ _ hl2, if_neg heq]
      | some w =>
        exact lookupH_append_some fi _ _ _ w hl2
    | some cur =>
      dsimp only
      by_cases hbig : f.filesize.getD 0 > cur.filesize
      · rw [if_pos hbig]
        exact lookupH_setH_ne fi _ _ _ heq
      · rw [if_neg hbig]

theorem videoStep_keys_nodup (fi : List (Nat × VidInfo)) (f : Format)
    (h : (fi.map Prod.fst).Nodup) : ((videoStep fi f).map Prod.fst).Nodup := by
  unfold videoStep
  by_cases hv : isVideoFmt f
  case neg => simpa [hv]
  rw [if_pos hv]
  dsimp only
  by_cases hpos : f.height.getD 0 > 0
  case neg =>
    rw [if_neg hpos]
    exact h
  rw [if_pos hpos]
  cases hl : lookupH fi (f.height.getD 0) with
  | none =>
    dsimp only
    rw [List.map_append, List.nodup_append]
    refine ⟨h, by simp, ?_⟩
    intro x hx hx'
    simp only [List.map_cons, List.map_nil, List.mem_singleton] at hx'
    subst hx'
    have hsome := (lookupH_isSome_iff fi (f.height.getD 0)).mpr hx
    rw [hl] at hsome
    simp at hsome
  | some cur =>
    dsimp only
    by_cases hbig : f.filesize.getD 0 > cur.filesize
    · rw [if_pos hbig, setH_keys]
      exact h
    · rw [if_neg hbig]
      exact h

theorem videoFold_keys_nodup (fs : List Format) (fi : List (Nat × VidInfo))
    (h : (fi.map Prod.fst).Nodup) : (((fs.foldl videoStep fi)).map Prod.fst).Nodup := by
  induction fs generalizing fi with
  | nil => exact h
  | cons f fs ih => exact ih _ (videoStep_keys_nodup fi f h)

theorem format_info_keys_nodup (fs : List Format) :
    ((format_info fs).map Prod.fst).Nodup :=
  videoFold_keys_nodup fs [] List.nodup_nil

theorem videoFold_lookup (fs : List Format) (fi : List (Nat × VidInfo)) (hgt : Nat) :
    lookupH (fs.foldl videoStep fi) hgt = fs.foldl (vidChallenge hgt) (lookupH fi hgt) := by
  induction fs generalizing fi with
  | nil => rfl
  | cons f fs ih =>
    rw [List.foldl_cons, List.foldl_cons, ih, videoStep_lookup]

theorem lookupH_format_info (fs : List Format) (hgt : Nat) :
    lookupH (format_info fs) hgt = fs.foldl (vidChallenge hgt) none :=
  videoFold_lookup fs [] hgt

theorem vidChallenge_fold_mono (hgt : Nat) (fs : List Format) (v : VidInfo) :
    ∃ w, fs.foldl (vidChallenge hgt) (some v) = some w ∧ v.filesize ≤ w.filesize := by
  induction fs generalizing v with
  | nil => exact ⟨v, rfl, Nat.le_refl _⟩
  | cons f fs ih =>
    have hstep : ∃ u, vidChallenge hgt (some v) f = some u ∧ v.filesize ≤ u.filesize := by
      unfold vidChallenge
      split
      · dsimp only
        by_cases hbig : f.filesize.getD 0 > v.filesize
        · rw [if_pos hbig]
          exact ⟨vidInfoOf f, rfl, Nat.le_of_lt hbig⟩
        · rw [if_neg hbig]
          exact ⟨v, rfl, Nat.le_refl _⟩
      · exact ⟨v, rfl, Nat.le_refl _⟩
    obtain ⟨u, hu, huv⟩ := hstep
    obtain ⟨w, hw, hws⟩ := ih u
    refine ⟨w, ?_, Nat.le_trans huv hws⟩
    rw [List.foldl_cons, hu]
    exact hw

theorem vidChallenge_fold_dominates (hgt : Nat) (fs : List Format)
    (cur : Option VidInfo) (w : VidInfo)
    (hfold : fs.foldl (vidChallenge hgt) cur = some w) :
    ∀ f ∈ fs, isVideoFmt f → f.height.getD 0 = hgt → 0 < hgt →
      f.filesize.getD 0 ≤ w.filesize := by
  induction fs generalizing cur with
  | nil =>
    intro f hf
    simp at hf
  | cons g fs ih =>
    intro f hf hvf hhf hpos
    rw [List.foldl_cons] at hfold
    rcases List.mem_cons.mp hf with rfl | hf'
    · have hstep : ∃ u, vidChallenge hgt cur f = some u ∧ f.filesize.getD 0 ≤ u.filesize := by
        unfold vidChallenge
        rw [if_pos ⟨hvf, hhf, hpos⟩]
        cases cur with
        | none => exact ⟨vidInfoOf f, rfl, Nat.le_refl _⟩
        | some v =>
          dsimp only
          by_cases hbig : f.filesize.getD 0 > v.filesize
          · rw [if_pos hbig]
            exact ⟨vidInfoOf f, rfl, Nat.le_refl _⟩
          · rw [if_neg hbig]
            exact ⟨v, rfl, Nat.le_of_not_lt hbig⟩
      obtain ⟨u, hu, huf⟩ := hstep
      rw [hu] at hfold
      obtain ⟨w', hw', hws⟩ := vidChallenge_fold_mono hgt fs u
      rw [hfold] at hw'
      injection hw' with hww
      rw [← hww] at hws
      exact Nat.le_trans huf hws
    · exact ih _ hfold f hf' hvf hhf hpos

theorem vidChallenge_fold_from (hgt : Nat) (fs : List Format) (cur : Option VidInfo)
    (w : VidInfo) (hfold : fs.foldl (vidChallenge hgt) cur = some w) :
    (∃ f ∈ fs, isVideoFmt f ∧ f.height.getD 0 = hgt ∧ 0 < hgt ∧ vidInfoOf f = w) ∨
      cur = some w := by
  induction fs generalizing cur with
  | nil => exact Or.inr hfold
  | cons g fs ih =>
    rw [List.foldl_cons] at hfold
    rcases ih _ hfold with hfrom | hstep
    · obtain ⟨f, hf, rest⟩ := hfrom
      exact Or.inl ⟨f, List.mem_cons_of_mem _ hf, rest⟩
    · unfold vidChallenge at hstep
      by_cases hcond : isVideoFmt g = true ∧ g.height.getD 0 = hgt ∧ 0 < hgt
      · rw [if_pos hcond] at hstep
        cases cur with
        | none =>
          refine Or.inl ⟨g, List.mem_cons_self _ _, hcond.1, hcond.2.1, hcond.2.2, ?_⟩
          injection hstep
        | some v =>
          dsimp only at hstep
          by_cases hbig : g.filesize.getD 0 > v.filesize
          · rw [if_pos hbig] at hstep
            refine Or.inl ⟨g, List.mem_cons_self _ _, hcond.1, hcond.2.1, hcond.2.2, ?_⟩
            injection hstep
          · rw [if_neg hbig] at hstep
            exact Or.inr hstep
      · rw [if_neg hcond] at hstep
        exact Or.inr hstep

theorem resolution_map_mem (h : Nat) (hh : (resolution_map h).isSome = true) :
    h = 2160 ∨ h = 1440 ∨ h = 1080 ∨ h = 720 ∨ h = 480 := by
  unfold resolution_map at hh
  split_ifs at hh with h1 h2 h3 h4 h5
  · exact Or.inl h1
  · exact Or.inr (Or.inl h2)
  · exact Or.inr (Or.inr (Or.inl h3))
  · exact Or.inr (Or.inr (Or.inr (Or.inl h4)))
  · exact Or.inr (Or.inr (Or.inr (Or.inr h5)))
  · simp at hh

theorem filterMap_entries_quality (fi : List (Nat × VidInfo)) (hs : List Nat)
    (hsome : ∀ h ∈ hs, (lookupH fi h).isSome) :
    (hs.filterMap (fun h => (lookupH fi h).map (videoEntryAt h))).map (fun e => e.quality) =
      hs.map (fun h => toString h ++ "p") := by
  induction hs with
  | nil => rfl
  | cons h hs ih =>
    obtain ⟨v, hv⟩ := Option.isSome_iff_exists.mp (hsome h (List.mem_cons_self _ _))
    rw [List.filterMap_cons, hv]
    simp only [Option.map_some']
    rw [List.map_cons, List.map_cons, ih (fun x hx => hsome x (List.mem_cons_of_mem _ hx))]
    rfl

/-- Claim C5 (confirmed): the emitted video entries are sorted by strictly
descending height, contain at most one entry per recognized tier
(2160/1440/1080/720/480, so the heights are pairwise distinct members of
that set), and for each emitted height the retained `format_info` record
comes from one of the video-only formats of that height and its file size
dominates every such format's file size; the emitted option list follows
those heights in order. -/
theorem video_entries_tiers_max (fs : List Format) :
    List.Pairwise (fun a b => a > b) (emittedHeights fs) ∧
    (∀ h ∈ emittedHeights fs, h = 2160 ∨ h = 1440 ∨ h = 1080 ∨ h = 720 ∨ h = 480) ∧
    (∀ h ∈ emittedHeights fs, ∃ v, lookupH (format_info fs) h = some v ∧
      (∃ f ∈ fs, isVideoFmt f ∧ f.height.getD 0 = h ∧ vidInfoOf f = v) ∧
      (∀ f ∈ fs, isVideoFmt f → f.height.getD 0 = h → f.filesize.getD 0 ≤ v.filesize)) ∧
    (videoEntries fs).map (fun e => e.quality) =
      (emittedHeights fs).map (fun h => toString h ++ "p") := by
  have hperm := List.perm_insertionSort (α := Nat) (· ≥ ·) ((format_info fs).map Prod.fst)
  have hnodupkeys := format_info_keys_nodup fs
  have hnodup_sorted : (sortedKeysDesc (format_info fs)).Nodup :=
    hperm.nodup_iff.mpr hnodupkeys
  have hsorted : List.Sorted (· ≥ ·) (sortedKeysDesc (format_info fs)) :=
    List.sorted_insertionSort _ _
  have hsorted_f : List.Pairwise (· ≥ ·) (emittedHeights fs) :=
    List.Pairwise.filter _ hsorted
  have hnodup_f : (emittedHeights fs).Nodup := List.Nodup.filter _ hnodup_sorted
  have hne : List.Pairwise (fun a b => a ≠ b) (emittedHeights fs) := hnodup_f
  have hmain : ∀ h ∈ emittedHeights fs, ∃ v, lookupH (format_info fs) h = some v ∧
      (∃ f ∈ fs, isVideoFmt f ∧ f.height.getD 0 = h ∧ vidInfoOf f = v) ∧
      (∀ f ∈ fs, isVideoFmt f → f.height.getD 0 = h → f.filesize.getD 0 ≤ v.filesize) := by
    intro h hmem
    unfold emittedHeights at hmem
    have hmem' := List.mem_filter.mp hmem
    have hkey : h ∈ (format_info fs).map Prod.fst := hperm.mem_iff.mp hmem'.1
    have hpos : 0 < h := by
      rcases resolution_map_mem h hmem'.2 with h' | h' | h' | h' | h' <;> omega
    have hsome : (lookupH (format_info fs) h).isSome :=
      (lookupH_isSome_iff _ _).mpr hkey
    obtain ⟨v, hv⟩ := Option.isSome_iff_exists.mp hsome
    have hfold : fs.foldl (vidChallenge h) none = some v := by
      rw [← lookupH_format_info]
      exact hv
    refine ⟨v, hv, ?_, ?_⟩
    · rcases vidChallenge_fold_from h fs none v hfold with ⟨f, hf, h1, h2, _, h4⟩ | habs
      · exact ⟨f, hf, h1, h2, h4⟩
      · simp at habs
    · intro f hf h1 h2
      exact vidChallenge_fold_dominates h fs none v hfold f hf h1 h2 hpos
  refine ⟨?_, ?_, hmain, ?_⟩
  · exact (hsorted_f.and hne).imp (fun hab => lt_of_le_of_ne hab.1 (Ne.symm hab.2))
  · intro h hmem
    unfold emittedHeights at hmem
    exact resolution_map_mem h (List.mem_filter.mp hmem).2
  · unfold videoEntries
    apply filterMap_entries_quality
    intro h hmem
    obtain ⟨v, hv, -, -⟩ := hmain h hmem
    rw [hv]
    rfl
